import Mathlib

set_option linter.unusedVariables false

/-
Verification of the adaptive audio-preprocessing pipeline
(apps/worker-python/audio_preprocessing.py and language_config.py).

Shallow embedding conventions:
  * numpy float64 samples are modelled as exact real numbers (List Real);
  * a Python function that may raise is modelled as Except String;
  * a try/except block that falls back to a value v is modelled by tryOr _ v;
  * numeric cores delegated to external DSP libraries (STFT, Butterworth
    filtering, silence trimming, zero-crossing rate, spectral centroid) are
    parameters of a DspEnv structure: the surrounding control flow, argument
    checks and exception behaviour are modelled faithfully, the heavy
    numerics are opaque parameters that every theorem quantifies over.
-/

/-- Python try/except that evaluates the body and falls back to a default
value when the body raises. -/
def tryOr {α : Type} (body : Except String α) (fallback : α) : α :=
  match body with
  | .ok a => a
  | .error _ => fallback

/-- Lift an optional value into Except, raising the given message on none;
used for numpy reductions that raise on empty arrays. -/
def ofOptionE {α : Type} (o : Option α) (msg : String) : Except String α :=
  match o with
  | some a => .ok a
  | none => .error msg

/-- Sum of a list, as np.sum. -/
noncomputable def npSum (l : List ℝ) : ℝ := l.sum

/-- Arithmetic mean, as np.mean; on an empty array numpy emits a warning and
yields NaN (division by zero), which the Lean model renders as 0 via real
division by zero. Every use below either guards non-emptiness or discards the
value before it matters. -/
noncomputable def npMean (l : List ℝ) : ℝ := npSum l / l.length

/-- Population variance, as np.var. -/
noncomputable def npVar (l : List ℝ) : ℝ :=
  npMean (l.map (fun s => (s - npMean l) ^ 2))

/-- Maximum of an array, as np.max: raises on an empty array, which the model
renders as none. -/
noncomputable def npMax : List ℝ → Option ℝ
  | [] => none
  | x :: xs => some (xs.foldl (fun a b => max a b) x)

/-- Minimum of an array, as np.min: raises on an empty array. -/
noncomputable def npMin : List ℝ → Option ℝ
  | [] => none
  | x :: xs => some (xs.foldl (fun a b => min a b) x)

/-- Linear-interpolation percentile, as np.percentile with the default
interpolation: sort ascending, take position (n-1)*q/100 and interpolate
between the two neighbouring order statistics. numpy raises on an empty
array. -/
noncomputable def npPercentile (a : List ℝ) (q : ℝ) : Except String ℝ :=
  match List.insertionSort (fun x y => x ≤ y) a with
  | [] => .error "zero-size array in percentile"
  | s =>
    let pos := ((a.length : ℝ) - 1) * q / 100
    let i := ⌊pos⌋₊
    let lo := s.getD i 0
    let hi := s.getD (i + 1) lo
    .ok (lo + (pos - (i : ℝ)) * (hi - lo))

/- ------------------------------------------------------------------
language_config.py
------------------------------------------------------------------ -/

/-- LANGUAGE_FREQUENCY_RANGES from language_config.py: language code to
(low_cutoff, high_cutoff) in Hz. -/
def LANGUAGE_FREQUENCY_RANGES : List (String × ℚ × ℚ) :=
  [("en", (200, 8000)),
   ("es", (200, 8000)),
   ("fr", (200, 8000)),
   ("de", (200, 8000)),
   ("hi", (100, 8000)),
   ("ta", (100, 8000)),
   ("te", (100, 8000)),
   ("bn", (100, 8000)),
   ("zh", (150, 8000)),
   ("ja", (150, 8000)),
   ("ko", (150, 8000))]

/-- get_language_frequency_range from language_config.py:
LANGUAGE_FREQUENCY_RANGES.get(language, (80, 8000)). The argument is an
Option so that a Python None argument is expressible; dict.get on a None key
simply misses every entry and yields the default. -/
def get_language_frequency_range (language : Option String) : ℚ × ℚ :=
  (match language with
   | none => none
   | some l => LANGUAGE_FREQUENCY_RANGES.lookup l).getD (80, 8000)

/- ------------------------------------------------------------------
Signal conditioners (audio_preprocessing.py, lines 130-263)
------------------------------------------------------------------ -/

/-- normalize_audio (lines 130-145). rms is sqrt of the mean square; when
rms is positive the gain 10 ^ ((target_db - 20 log10 rms) / 20) is applied;
then np.max of the absolute values is taken, which raises on an empty array
(the function has no try/except, so this exception escapes to the caller);
finally a clip rescale when the peak exceeds 0.95. On an empty input numpy
yields rms = NaN, the comparison NaN > 0 is False exactly as the Lean
0 > 0 branch, and np.max then raises. -/
noncomputable def normalize_audio (audio : List ℝ) (target_db : ℝ) :
    Except String (List ℝ) :=
  let rms := Real.sqrt (npMean (audio.map (fun s => s ^ 2)))
  let audio1 :=
    if rms > 0 then
      let current_db := 20 * Real.logb 10 rms
      let gain_db := target_db - current_db
      let gain_linear := (10 : ℝ) ^ (gain_db / 20)
      audio.map (fun s => s * gain_linear)
    else audio
  match npMax (audio1.map (fun s => |s|)) with
  | none => .error "zero-size array to reduction operation maximum"
  | some max_val =>
      .ok (if max_val > 0.95 then audio1.map (fun s => s * (0.95 / max_val))
           else audio1)

/-- remove_dc_offset (lines 147-149): audio - np.mean(audio). On an empty
array the numpy result is the empty array (broadcasting with the NaN mean),
which coincides with mapping over the empty list. -/
noncomputable def remove_dc_offset (audio : List ℝ) : List ℝ :=
  audio.map (fun s => s - npMean audio)

/-- Direct form II transposed scipy.signal.lfilter for b = [b0, b1], a = [1]
with a single initial state z: out[0] = b0 * x[0] + z, and the state after
consuming x is b1 * x, so out[n] = b0 * x[n] + b1 * x[n-1] for n >= 1. -/
noncomputable def lfilterB2 (b0 b1 : ℝ) : ℝ → List ℝ → List ℝ
  | _, [] => []
  | z, x :: xs => (b0 * x + z) :: lfilterB2 b0 b1 (b1 * x) xs

/-- librosa.effects.preemphasis: filters with b = [1, -coef], a = [1] and,
when no initial state is given, sets zi = 2*y[0] - y[1] (the linearly
extrapolated sample, passed raw as the lfilter delay state). For inputs of
length 0 or 1 the slice y[1:2] is empty, so zi has shape (0,) and
scipy.signal.lfilter rejects it with a shape error. -/
noncomputable def librosa_preemphasis (y : List ℝ) (coef : ℝ) :
    Except String (List ℝ) :=
  match y with
  | x0 :: x1 :: _ => .ok (lfilterB2 1 (-coef) (2 * x0 - x1) y)
  | _ => .error "Unexpected shape for zi"

/-- apply_preemphasis (lines 193-199): librosa preemphasis inside
try/except, returning the input on failure. -/
noncomputable def apply_preemphasis (audio : List ℝ) (coeff : ℝ) : List ℝ :=
  tryOr (librosa_preemphasis audio coeff) audio

/-- scipy.signal.savgol_filter applied to a 0-dimensional input (a numpy
scalar): the function indexes x.shape[axis] with axis = -1 on an empty shape
tuple (and in interp mode also requires window_length <= the size along that
axis), so a scalar argument always raises before any smoothing happens,
whatever its value. -/
def savgol_filter_scalar (gain : ℝ) (window_length polyorder : ℕ) :
    Except String ℝ :=
  .error "tuple index out of range"

/-- Body of the try block of apply_wiener_filter (lines 243-260):
np.percentile raises on an empty input; otherwise the quiet samples are
those with magnitude strictly below the 10th percentile of magnitudes, the
noise variance is their variance (or the fallback when there are none), the
scalar Wiener gain is var / (var + noise), and savgol_filter is invoked on
that scalar, which always raises. -/
noncomputable def wiener_try_body (audio : List ℝ) (noise_variance : ℝ) :
    Except String (List ℝ) := do
  let pct ← npPercentile (audio.map (fun s => |s|)) 10
  let quiet_parts := audio.filter (fun s => |s| < pct)
  let noise_var := if quiet_parts.length > 0 then npVar quiet_parts
                   else noise_variance
  let signal_power := npVar audio
  let wiener_gain := signal_power / (signal_power + noise_var)
  let smoothed_gain ← savgol_filter_scalar wiener_gain 5 2
  pure (audio.map (fun s => s * smoothed_gain))

/-- apply_wiener_filter (lines 241-263): the body above inside try/except,
returning the input on failure. -/
noncomputable def apply_wiener_filter (audio : List ℝ) (noise_variance : ℝ) :
    List ℝ :=
  tryOr (wiener_try_body audio noise_variance) audio

/-- Opaque numeric cores delegated to librosa / scipy / soundfile, together
with the decode and encode boundaries of the pipeline. Each core may raise
(Except); all control flow around the cores is modelled explicitly. -/
structure DspEnv where
  /-- librosa.load of a byte buffer at a target sample rate: samples and the
  actual sample rate, or a decode failure. -/
  decode : List ℕ → ℕ → Except String (List ℝ × ℕ)
  /-- sf.write to a 16-bit PCM WAV buffer; may raise on internal faults. -/
  encode : List ℝ → ℕ → Except String (List ℕ)
  /-- Numeric core of reduce_noise (lines 154-172): STFT with n_fft 2048 and
  hop 512, spectral gating by the noise_reduction_factor, inverse STFT. -/
  stftCore : List ℝ → ℝ → Except String (List ℝ)
  /-- librosa.effects.trim with the given top_db, frame_length, hop_length. -/
  trimCore : List ℝ → ℝ → ℕ → ℕ → Except String (List ℝ)
  /-- scipy.signal.filtfilt with 4th order Butterworth band coefficients for
  normalized cutoffs (low, high), after the validity checks modelled below. -/
  bandCore : ℝ → ℝ → List ℝ → List ℝ
  /-- scipy.signal.filtfilt with 4th order Butterworth high-pass
  coefficients for a normalized cutoff, after the validity checks. -/
  highCore : ℝ → List ℝ → List ℝ
  /-- np.mean of librosa.feature.zero_crossing_rate. -/
  zcrCore : List ℝ → Except String ℝ
  /-- np.mean of librosa.feature.spectral_centroid. -/
  centroidCore : List ℝ → ℕ → Except String ℝ

/-- reduce_noise (lines 151-175): STFT spectral gating inside try/except,
returning the input on any internal failure. -/
noncomputable def reduce_noise (env : DspEnv) (audio : List ℝ) (sr : ℕ)
    (noise_reduction_factor : ℝ) : List ℝ :=
  tryOr (env.stftCore audio noise_reduction_factor) audio

/-- trim_silence (lines 177-191): librosa.effects.trim inside try/except,
returning the input on any internal failure. -/
noncomputable def trim_silence (env : DspEnv) (audio : List ℝ) (sr : ℕ)
    (top_db : ℝ) : List ℝ :=
  tryOr (env.trimCore audio top_db 2048 512) audio

/-- Body of apply_high_pass_filter (lines 203-208): scipy butter demands
digital critical frequencies strictly between 0 and 1 (otherwise it raises),
and scipy filtfilt demands input length greater than the default pad length.
A 4th order Butterworth high-pass has 5 taps, so the pad length is
3 * max(len(a), len(b)) = 15 and filtfilt raises exactly when the input
length is at most 15. -/
noncomputable def high_pass_body (env : DspEnv) (audio : List ℝ) (sr : ℕ)
    (cutoff : ℝ) : Except String (List ℝ) :=
  let nyquist := (sr : ℝ) / 2
  let normal_cutoff := cutoff / nyquist
  if ¬ (0 < normal_cutoff ∧ normal_cutoff < 1) then
    .error "Digital filter critical frequencies must be 0 < Wn < 1"
  else if audio.length ≤ 15 then
    .error "The length of the input vector x must be greater than padlen"
  else
    .ok (env.highCore normal_cutoff audio)

/-- apply_high_pass_filter (lines 201-211): the body inside try/except. -/
noncomputable def apply_high_pass_filter (env : DspEnv) (audio : List ℝ)
    (sr : ℕ) (cutoff : ℝ) : List ℝ :=
  tryOr (high_pass_body env audio sr cutoff) audio

/-- Body of apply_bandpass_filter (lines 216-222): both normalized cutoffs
must lie strictly between 0 and 1 for scipy butter, then the filtfilt pad
length check: a 4th order band-pass doubles the order, giving 9-tap
coefficient arrays and a pad length of 3 * 9 = 27. With sr = 16000 and
high_cutoff = 8000 the normalized high cutoff is exactly 1, so butter
raises and the filter is skipped. -/
noncomputable def bandpass_body (env : DspEnv) (audio : List ℝ) (sr : ℕ)
    (low_cutoff high_cutoff : ℝ) : Except String (List ℝ) :=
  let nyquist := (sr : ℝ) / 2
  let low := low_cutoff / nyquist
  let high := high_cutoff / nyquist
  if ¬ (0 < low ∧ low < 1 ∧ 0 < high ∧ high < 1) then
    .error "Digital filter critical frequencies must be 0 < Wn < 1"
  else if audio.length ≤ 27 then
    .error "The length of the input vector x must be greater than padlen"
  else
    .ok (env.bandCore low high audio)

/-- apply_bandpass_filter (lines 213-225): the body inside try/except. -/
noncomputable def apply_bandpass_filter (env : DspEnv) (audio : List ℝ)
    (sr : ℕ) (low_cutoff high_cutoff : ℝ) : List ℝ :=
  tryOr (bandpass_body env audio sr low_cutoff high_cutoff) audio

/-- apply_language_specific_preprocessing (lines 227-239): look up the
language band and apply the bandpass filter. The lookup is total and the
bandpass filter catches its own failures, so the except branch of the
source (falling back to the default band) is unreachable. -/
noncomputable def apply_language_specific_preprocessing (env : DspEnv)
    (audio : List ℝ) (sr : ℕ) (language : String) : List ℝ :=
  let band := get_language_frequency_range (some language)
  apply_bandpass_filter env audio sr (band.1 : ℝ) (band.2 : ℝ)

/-- librosa.util.normalize with the default infinity norm: peak-normalize by
the maximum absolute value; np.max raises on an empty array and this call
(line 96 and 126) is not wrapped in a try/except of its own. Values whose
magnitude is below the tiny float threshold are left unscaled; in the exact
real model that threshold degenerates to 0. -/
noncomputable def librosa_util_normalize (audio : List ℝ) :
    Except String (List ℝ) :=
  match npMax (audio.map (fun s => |s|)) with
  | none => .error "zero-size array to reduction operation maximum"
  | some peak => .ok (if peak > 0 then audio.map (fun s => s / peak) else audio)

/- ------------------------------------------------------------------
PreprocessingPipeline (audio_preprocessing.py, lines 18-128)
------------------------------------------------------------------ -/

/-- Truthiness of the optional language hint as Python evaluates
`if language_hint:` — None and the empty string are falsy. -/
def languageTruthy : Option String → Bool
  | none => false
  | some s => s ≠ ""

/-- apply_minimal_preprocessing (lines 58-69). normalize_audio can raise
(line 61 is not wrapped), which the Except bind propagates to the caller. -/
noncomputable def apply_minimal_preprocessing (env : DspEnv) (audio : List ℝ)
    (sr : ℕ) : Except String (List ℝ) := do
  let audio ← normalize_audio audio (-20)
  let audio := remove_dc_offset audio
  let audio := trim_silence env audio sr 20
  pure audio

/-- apply_standard_preprocessing (lines 71-98). -/
noncomputable def apply_standard_preprocessing (env : DspEnv) (audio : List ℝ)
    (sr : ℕ) (language_hint : Option String) : Except String (List ℝ) := do
  let audio ← normalize_audio audio (-20)
  let audio := remove_dc_offset audio
  let audio :=
    if languageTruthy language_hint then
      apply_language_specific_preprocessing env audio sr
        (language_hint.getD "")
    else
      apply_bandpass_filter env audio sr 80 8000
  let audio := reduce_noise env audio sr (7 / 10)
  let audio := trim_silence env audio sr 20
  let audio := apply_preemphasis audio (97 / 100)
  let audio ← librosa_util_normalize audio
  pure audio

/-- apply_aggressive_preprocessing (lines 100-128). -/
noncomputable def apply_aggressive_preprocessing (env : DspEnv)
    (audio : List ℝ) (sr : ℕ) (language_hint : Option String) :
    Except String (List ℝ) := do
  let audio ← normalize_audio audio (-20)
  let audio := remove_dc_offset audio
  let audio :=
    if languageTruthy language_hint then
      apply_language_specific_preprocessing env audio sr
        (language_hint.getD "")
    else
      apply_bandpass_filter env audio sr 80 8000
  let audio := reduce_noise env audio sr (9 / 10)
  let audio := apply_wiener_filter audio (1 / 100)
  let audio := trim_silence env audio sr 15
  let audio := apply_preemphasis audio (97 / 100)
  let audio ← librosa_util_normalize audio
  pure audio

/-- Profile dispatch of preprocess_audio (lines 38-46): minimal, standard,
aggressive, or the warning fallback to standard for any other name. -/
noncomputable def preprocessing_dispatch (env : DspEnv) (audio : List ℝ)
    (sr : ℕ) (language_hint : Option String) (preprocessing_level : String) :
    Except String (List ℝ) :=
  if preprocessing_level = "minimal" then
    apply_minimal_preprocessing env audio sr
  else if preprocessing_level = "standard" then
    apply_standard_preprocessing env audio sr language_hint
  else if preprocessing_level = "aggressive" then
    apply_aggressive_preprocessing env audio sr language_hint
  else
    apply_standard_preprocessing env audio sr language_hint

/-- preprocess_audio (lines 18-56): the whole body sits in one try/except
that returns the original byte buffer on any exception, whether it comes
from decoding, from a stage of the selected profile, or from encoding. -/
noncomputable def preprocess_audio (env : DspEnv) (audio_data : List ℕ)
    (target_sr : ℕ) (language_hint : Option String)
    (preprocessing_level : String) : List ℕ :=
  match env.decode audio_data target_sr with
  | .error _ => audio_data
  | .ok (audio, sr) =>
    match preprocessing_dispatch env audio sr language_hint
        preprocessing_level with
    | .error _ => audio_data
    | .ok processed =>
      match env.encode processed target_sr with
      | .error _ => audio_data
      | .ok out => out

/- ------------------------------------------------------------------
QualityAssessor (audio_preprocessing.py, lines 265-310)
------------------------------------------------------------------ -/

/-- Metrics dictionary built by assess_audio_quality; a missing key (empty
dictionary) is a none field. -/
structure QualityMetrics where
  snr_estimate : Option ℝ
  dynamic_range : Option ℝ
  zero_crossing_rate : Option ℝ
  spectral_centroid : Option ℝ

/-- The empty metrics dictionary returned on an internal failure. -/
def emptyMetrics : QualityMetrics := ⟨none, none, none, none⟩

/-- Body of the try block of assess_audio_quality (lines 268-288), in source
order: SNR from mean power and the 10th percentile noise floor (np.percentile
raises on an empty array), dynamic range from the peak and the smallest
nonzero magnitude (np.min raises when no sample is nonzero), zero-crossing
rate and spectral centroid through the librosa cores. An exception at any
step discards the partially built dictionary. -/
noncomputable def assess_body (env : DspEnv) (audio : List ℝ) (sr : ℕ) :
    Except String QualityMetrics := do
  let signal_power := npMean (audio.map (fun s => s ^ 2))
  let noise_floor ← npPercentile (audio.map (fun s => |s|)) 10
  let snr_estimate := 20 * Real.logb 10 (signal_power /
    (noise_floor ^ 2 + 1e-10))
  let peak ← ofOptionE (npMax (audio.map (fun s => |s|)))
    "zero-size array to reduction operation maximum"
  let min_nonzero ← ofOptionE
    (npMin ((audio.filter (fun s => |s| > 0)).map (fun s => |s|)))
    "zero-size array to reduction operation minimum"
  let dynamic_range := 20 * Real.logb 10 (peak / (min_nonzero + 1e-10))
  let zcr ← env.zcrCore audio
  let spectral_centroid ← env.centroidCore audio sr
  pure ⟨some snr_estimate, some dynamic_range, some zcr,
    some spectral_centroid⟩

/-- assess_audio_quality (lines 265-291): the body inside try/except,
returning the empty dictionary on failure. -/
noncomputable def assess_audio_quality (env : DspEnv) (audio : List ℝ)
    (sr : ℕ) : QualityMetrics :=
  tryOr (assess_body env audio sr) emptyMetrics

/-- The comparison of validate_preprocessing_quality (lines 302-307):
dict.get with default 0 for the SNR estimate and default 1 for the
zero-crossing rate, strict comparisons, conjunction. -/
noncomputable def snrZcrImproved (orig_metrics proc_metrics : QualityMetrics) :
    Bool :=
  let snr_improved :=
    proc_metrics.snr_estimate.getD 0 > orig_metrics.snr_estimate.getD 0
  let zcr_improved :=
    proc_metrics.zero_crossing_rate.getD 1 <
      orig_metrics.zero_crossing_rate.getD 1
  decide snr_improved && decide zcr_improved

/-- The except clause of validate_preprocessing_quality (lines 308-310):
a raised exception inside the try block yields True. -/
def validateResult (r : Except String Bool) : Bool := tryOr r true

/-- Body of the try block of validate_preprocessing_quality (lines 297-307).
Every step is total (assess_audio_quality catches its own failures and the
dictionary lookups and comparisons cannot raise), so the body never reaches
the except clause. -/
noncomputable def validate_try_body (env : DspEnv)
    (original_audio processed_audio : List ℝ) (sr : ℕ) :
    Except String Bool := do
  let orig_metrics := assess_audio_quality env original_audio sr
  let proc_metrics := assess_audio_quality env processed_audio sr
  pure (snrZcrImproved orig_metrics proc_metrics)

/-- validate_preprocessing_quality (lines 293-310). -/
noncomputable def validate_preprocessing_quality (env : DspEnv)
    (original_audio processed_audio : List ℝ) (sr : ℕ) : Bool :=
  validateResult (validate_try_body env original_audio processed_audio sr)

/- ------------------------------------------------------------------
Observables used in theorem statements
------------------------------------------------------------------ -/

/-- RMS energy of a sample sequence, the quantity normalize_audio drives to
the -20 dB target (an RMS of 10 ^ (-20/20) = 1/10). -/
noncomputable def rmsOf (x : List ℝ) : ℝ :=
  Real.sqrt (npMean (x.map (fun s => s ^ 2)))

/-- Peak absolute amplitude; 0 for the empty sequence. -/
noncomputable def peakAbs (x : List ℝ) : ℝ :=
  (npMax (x.map (fun s => |s|))).getD 0

/-- The signal rescaled so that its RMS energy equals 1/10, the -20 dB
target of normalize_audio. -/
noncomputable def targetScaled (x : List ℝ) : List ℝ :=
  x.map (fun s => s * (1 / (10 * rmsOf x)))

/-- A concrete environment whose decode always fails and whose numeric cores
are harmless; used to instantiate universally quantified theorems on
concrete inputs. -/
noncomputable def probeEnv : DspEnv where
  decode := fun _ _ => .error "decode failure"
  encode := fun _ _ => .ok []
  stftCore := fun _ _ => .error "stft failure"
  trimCore := fun a _ _ _ => .ok a
  bandCore := fun _ _ a => a
  highCore := fun _ a => a
  zcrCore := fun _ => .ok 0
  centroidCore := fun _ _ => .ok 0



/- ------------------------------------------------------------------
Helper lemmas
------------------------------------------------------------------ -/

/-- The try body of apply_wiener_filter always raises: on an empty input at
the percentile, on every other input at the savgol smoothing of the scalar
gain. -/
theorem wiener_try_body_isError (audio : List ℝ) (noise_variance : ℝ) :
    ∃ e, wiener_try_body audio noise_variance = .error e := by
  unfold wiener_try_body
  cases h : npPercentile (audio.map (fun s => |s|)) 10 with
  | error e => exact ⟨e, rfl⟩
  | ok v => exact ⟨"tuple index out of range", rfl⟩

/-- apply_wiener_filter returns its input unchanged, for every input. -/
theorem apply_wiener_filter_eq_input (audio : List ℝ) (noise_variance : ℝ) :
    apply_wiener_filter audio noise_variance = audio := by
  obtain ⟨e, he⟩ := wiener_try_body_isError audio noise_variance
  simp [apply_wiener_filter, he, tryOr]

/- ------------------------------------------------------------------
Claim theorems
------------------------------------------------------------------ -/

/-- C3 (code_bug): the claim describes the intended Wiener computation
(noise variance from the quietest decile, scalar gain, smoothing, multiply),
but the source passes the scalar gain to scipy savgol_filter, which raises
on a 0-dimensional input; the except clause then returns the input, so
apply_wiener_filter is the identity on every input and never multiplies by
any gain. -/
theorem C3_apply_wiener_filter_never_applies_gain :
    ∀ (audio : List ℝ) (noise_variance : ℝ),
      apply_wiener_filter audio noise_variance = audio :=
  fun audio nv => apply_wiener_filter_eq_input audio nv

/-- C9: get_language_frequency_range is total; any code missing from the
static mapping, including "xyz", the empty string and None, yields the
default band (80, 8000); every mapped band has high cutoff exactly 8000 and
a positive low cutoff strictly below it. -/
theorem C9_language_frequency_range_total_and_bands :
    (∀ l : String, LANGUAGE_FREQUENCY_RANGES.lookup l = none →
      get_language_frequency_range (some l) = (80, 8000)) ∧
    get_language_frequency_range none = (80, 8000) ∧
    get_language_frequency_range (some "xyz") = (80, 8000) ∧
    get_language_frequency_range (some "") = (80, 8000) ∧
    (∀ p ∈ LANGUAGE_FREQUENCY_RANGES,
      p.2.2 = 8000 ∧ 0 < p.2.1 ∧ p.2.1 < 8000) := by
  refine ⟨?_, by decide, by decide, by decide, by decide⟩
  intro l h
  simp [get_language_frequency_range, h]

/-- Witness for C9 at the concrete unmapped code "qq". -/
theorem C9_witness :
    LANGUAGE_FREQUENCY_RANGES.lookup "qq" = none ∧
    get_language_frequency_range (some "qq") = (80, 8000) :=
  ⟨by decide, C9_language_frequency_range_total_and_bands.1 "qq" (by decide)⟩

/-- C8: preprocess_audio with any profile name other than minimal, standard
or aggressive produces exactly the output of profile standard on the same
inputs, for every environment, byte buffer, sample rate and language hint. -/
theorem C8_unknown_profile_behaves_as_standard :
    ∀ (env : DspEnv) (audio_data : List ℕ) (target_sr : ℕ)
      (language_hint : Option String) (level : String),
      level ≠ "minimal" → level ≠ "standard" → level ≠ "aggressive" →
      preprocess_audio env audio_data target_sr language_hint level =
        preprocess_audio env audio_data target_sr language_hint "standard" := by
  intro env data sr hint level h1 h2 h3
  unfold preprocess_audio preprocessing_dispatch
  simp [h1, h2, h3]

/-- Witness for C8 at the concrete bogus profile name. -/
theorem C8_witness :
    preprocess_audio probeEnv [7, 8] 16000 (some "en") "bogus" =
      preprocess_audio probeEnv [7, 8] 16000 (some "en") "standard" :=
  C8_unknown_profile_behaves_as_standard probeEnv [7, 8] 16000 (some "en")
    "bogus" (by decide) (by decide) (by decide)

/-- C1: preprocess_audio is a total function of its inputs (it never raises
to the caller), and it returns the original input bytes unchanged whenever
decoding fails, whenever the selected preprocessing chain raises, and
whenever re-encoding fails. -/
theorem C1_preprocess_audio_failure_returns_original :
    ∀ (env : DspEnv) (audio_data : List ℕ) (target_sr : ℕ)
      (language_hint : Option String) (level : String),
      (∀ e, env.decode audio_data target_sr = .error e →
        preprocess_audio env audio_data target_sr language_hint level =
          audio_data) ∧
      (∀ audio sr e, env.decode audio_data target_sr = .ok (audio, sr) →
        preprocessing_dispatch env audio sr language_hint level = .error e →
        preprocess_audio env audio_data target_sr language_hint level =
          audio_data) ∧
      (∀ audio sr processed e,
        env.decode audio_data target_sr = .ok (audio, sr) →
        preprocessing_dispatch env audio sr language_hint level =
          .ok processed →
        env.encode processed target_sr = .error e →
        preprocess_audio env audio_data target_sr language_hint level =
          audio_data) := by
  intro env data sr hint level
  refine ⟨?_, ?_, ?_⟩
  · intro e h; unfold preprocess_audio; rw [h]
  · intro audio sr2 e h1 h2; unfold preprocess_audio; simp [h1, h2]
  · intro audio sr2 processed e h1 h2 h3
    unfold preprocess_audio; simp [h1, h2, h3]

/-- Witness for C1: with an environment whose decoder rejects the buffer,
the original bytes come back verbatim. -/
theorem C1_witness :
    probeEnv.decode [5, 6, 7] 16000 = .error "decode failure" ∧
    preprocess_audio probeEnv [5, 6, 7] 16000 none "standard" = [5, 6, 7] :=
  ⟨rfl, (C1_preprocess_audio_failure_returns_original probeEnv [5, 6, 7]
      16000 none "standard").1 "decode failure" rfl⟩

/-- C7: validate_preprocessing_quality returns true exactly when the SNR
estimate (defaulting to 0 when missing) strictly increased and the
zero-crossing rate (defaulting to 1 when missing) strictly decreased from
the original to the processed assessment; the except clause of the source
maps any raised exception to true. In the embedding every step of the try
block is total, so the handler clause is stated on the handler itself. -/
theorem C7_validate_iff_snr_up_and_zcr_down :
    (∀ (env : DspEnv) (original_audio processed_audio : List ℝ) (sr : ℕ),
      validate_preprocessing_quality env original_audio processed_audio sr =
          true ↔
        ((assess_audio_quality env processed_audio sr).snr_estimate.getD 0 >
           (assess_audio_quality env original_audio sr).snr_estimate.getD 0 ∧
         (assess_audio_quality env processed_audio
             sr).zero_crossing_rate.getD 1 <
           (assess_audio_quality env original_audio
             sr).zero_crossing_rate.getD 1)) ∧
    (∀ e : String, validateResult (.error e) = true) := by
  constructor
  · intro env orig proc sr
    unfold validate_preprocessing_quality validate_try_body validateResult
      tryOr snrZcrImproved
    simp [pure, Except.pure]
  · intro e; rfl

/-- C10: whenever both quality assessments come back as the empty metrics
dictionary, the missing-key defaults make both strict comparisons false, so
validate_preprocessing_quality returns false rather than the fail-open
true. -/
theorem C10_empty_metrics_judged_not_improved :
    ∀ (env : DspEnv) (original_audio processed_audio : List ℝ) (sr : ℕ),
      assess_audio_quality env original_audio sr = emptyMetrics →
      assess_audio_quality env processed_audio sr = emptyMetrics →
      validate_preprocessing_quality env original_audio processed_audio sr =
        false := by
  intro env orig proc sr h1 h2
  unfold validate_preprocessing_quality validate_try_body validateResult tryOr
  rw [h1, h2]
  simp [snrZcrImproved, emptyMetrics, pure, Except.pure]

/-- Degenerate inputs (empty, or with no nonzero sample) make
assess_audio_quality return the empty metrics dictionary: either the
percentile raises on the empty array, or np.min raises on the empty array
of nonzero magnitudes. -/
theorem assess_degenerate_empty (env : DspEnv) (audio : List ℝ) (sr : ℕ)
    (h : ∀ s ∈ audio, s = 0) :
    assess_audio_quality env audio sr = emptyMetrics := by
  have hfil : audio.filter (fun s => decide (|s| > 0)) = [] := by
    rw [List.filter_eq_nil_iff]
    intro a ha
    rw [h a ha]
    simp
  unfold assess_audio_quality assess_body
  cases hp : npPercentile (audio.map (fun s => |s|)) 10 with
  | error e => rfl
  | ok v =>
    cases hm : npMax (audio.map (fun s => |s|)) with
    | none => rfl
    | some p => rw [hfil]; rfl

/-- Witness for C10: an empty original signal and an all-zero processed
signal both assess to the empty metrics dictionary, and validation judges
the pair not improved. -/
theorem C10_witness :
    assess_audio_quality probeEnv [] 16000 = emptyMetrics ∧
    assess_audio_quality probeEnv [0, 0, 0] 16000 = emptyMetrics ∧
    validate_preprocessing_quality probeEnv [] [0, 0, 0] 16000 = false := by
  have h1 : assess_audio_quality probeEnv [] 16000 = emptyMetrics :=
    assess_degenerate_empty probeEnv [] 16000 (by simp)
  have h2 : assess_audio_quality probeEnv [0, 0, 0] 16000 = emptyMetrics :=
    assess_degenerate_empty probeEnv [0, 0, 0] 16000 (by
      intro s hs
      simp at hs
      simp [hs])
  exact ⟨h1, h2,
    C10_empty_metrics_judged_not_improved probeEnv [] [0, 0, 0] 16000 h1 h2⟩

/-- Summing a list shifted by a constant. -/
theorem sum_map_sub_const (l : List ℝ) (c : ℝ) :
    (l.map (fun s => s - c)).sum = l.sum - l.length * c := by
  induction l with
  | nil => simp
  | cons a t ih =>
    simp only [List.map_cons, List.sum_cons, ih, List.length_cons]
    push_cast
    ring

/-- C6: remove_dc_offset preserves the sample count and, for every non-empty
input, the arithmetic mean of its output is exactly 0 (exact real
arithmetic models the exact rational claim). -/
theorem C6_remove_dc_offset_exact_zero_mean :
    ∀ x : List ℝ, (remove_dc_offset x).length = x.length ∧
      (x ≠ [] → npMean (remove_dc_offset x) = 0) := by
  intro x
  constructor
  · simp [remove_dc_offset]
  · intro hx
    have hlen : (x.length : ℝ) ≠ 0 := by
      exact_mod_cast fun h => hx (List.length_eq_zero.mp h)
    unfold remove_dc_offset npMean npSum
    rw [List.length_map, sum_map_sub_const, mul_div_cancel₀ _ hlen]
    simp

/-- Witness for C6 at the concrete input [2, 4]. -/
theorem C6_witness :
    (remove_dc_offset [2, 4]).length = ([2, 4] : List ℝ).length ∧
    npMean (remove_dc_offset [2, 4]) = 0 :=
  ⟨(C6_remove_dc_offset_exact_zero_mean [2, 4]).1,
   (C6_remove_dc_offset_exact_zero_mean [2, 4]).2 (by simp)⟩

/-- The two-tap lfilter preserves length. -/
theorem lfilterB2_length (b0 b1 : ℝ) :
    ∀ (z : ℝ) (x : List ℝ), (lfilterB2 b0 b1 z x).length = x.length
  | _, [] => rfl
  | z, a :: xs => by
    simp [lfilterB2, lfilterB2_length b0 b1 (b1 * a) xs]

/-- First output of the two-tap lfilter. -/
theorem lfilterB2_head (b0 b1 z a : ℝ) (xs : List ℝ) :
    (lfilterB2 b0 b1 z (a :: xs)).getD 0 0 = b0 * a + z := by
  simp [lfilterB2]

/-- Later outputs of the two-tap lfilter combine the current and previous
input samples. -/
theorem lfilterB2_getD_succ (b0 b1 : ℝ) :
    ∀ (x : List ℝ) (z : ℝ) (n : ℕ), n + 1 < x.length →
      (lfilterB2 b0 b1 z x).getD (n + 1) 0 =
        b0 * x.getD (n + 1) 0 + b1 * x.getD n 0 := by
  intro x
  induction x with
  | nil => intro z n h; simp at h
  | cons a xs ih =>
    intro z n h
    cases n with
    | zero =>
      cases xs with
      | nil => simp at h
      | cons b t => simp [lfilterB2, List.getD]
    | succ m =>
      have h2 : m + 1 < xs.length := by simpa using h
      have hm := ih (b1 * a) m h2
      simpa [lfilterB2, List.getD] using hm

/-- Counterexample for C4: on the input [1, 0] with coefficient 0.97 the
claim predicts the output [1, -0.97] (first sample passed through), but
librosa initializes the filter state with the raw extrapolated sample
2*x[0] - x[1], so the first output is 3*x[0] - x[1] = 3. -/
theorem C4_counterexample :
    ¬ (apply_preemphasis [1, 0] (97 / 100) = [1, -(97 / 100)]) := by
  have hval : apply_preemphasis [1, 0] (97 / 100) = [3, -(97 / 100)] := by
    simp [apply_preemphasis, librosa_preemphasis, tryOr, lfilterB2]
    norm_num
  rw [hval]
  intro hcontra
  have : (3 : ℝ) = 1 := by injection hcontra
  norm_num at this

/-- C4 (amended): apply_preemphasis with coefficient c returns, for inputs
of length at least two, y with y[n] = x[n] - c*x[n-1] for n >= 1 but
y[0] = x[0] + (2*x[0] - x[1]) = 3*x[0] - x[1] (the librosa linear
extrapolation state is added to the first sample, not the claimed
y[0] = x[0]); the sample count is preserved; and on every single-sample
input the output is that same single sample (the filter state has the wrong
shape, scipy raises, and the except clause returns the input). -/
theorem C4_preemphasis_amended :
    (∀ a c : ℝ, apply_preemphasis [a] c = [a]) ∧
    (∀ (c x0 x1 : ℝ) (rest : List ℝ),
      (apply_preemphasis (x0 :: x1 :: rest) c).length =
        (x0 :: x1 :: rest).length ∧
      (apply_preemphasis (x0 :: x1 :: rest) c).getD 0 0 = 3 * x0 - x1 ∧
      (∀ n : ℕ, n + 1 < (x0 :: x1 :: rest).length →
        (apply_preemphasis (x0 :: x1 :: rest) c).getD (n + 1) 0 =
          (x0 :: x1 :: rest).getD (n + 1) 0 -
            c * (x0 :: x1 :: rest).getD n 0)) := by
  constructor
  · intro a c; rfl
  · intro c x0 x1 rest
    have hform : apply_preemphasis (x0 :: x1 :: rest) c =
        lfilterB2 1 (-c) (2 * x0 - x1) (x0 :: x1 :: rest) := rfl
    refine ⟨?_, ?_, ?_⟩
    · rw [hform, lfilterB2_length]
    · rw [hform, lfilterB2_head]; ring
    · intro n h
      rw [hform, lfilterB2_getD_succ _ _ _ _ _ h]; ring

/-- Witness for C4 on the concrete inputs [5] and [1, 0]. -/
theorem C4_witness :
    apply_preemphasis [(5 : ℝ)] (97 / 100) = [5] ∧
    (apply_preemphasis [1, 0] (97 / 100)).getD 0 0 = 3 * 1 - 0 ∧
    (apply_preemphasis [1, 0] (97 / 100)).getD 1 0 =
      ([1, 0] : List ℝ).getD 1 0 - 97 / 100 * ([1, 0] : List ℝ).getD 0 0 :=
  ⟨C4_preemphasis_amended.1 5 (97 / 100),
   (C4_preemphasis_amended.2 (97 / 100) 1 0 []).2.1,
   (C4_preemphasis_amended.2 (97 / 100) 1 0 []).2.2 0 (by norm_num)⟩

/-- The mean of squares is nonnegative. -/
theorem npMean_sq_nonneg (x : List ℝ) :
    0 ≤ npMean (x.map (fun s => s ^ 2)) := by
  unfold npMean npSum
  apply div_nonneg
  · apply List.sum_nonneg
    intro a ha
    simp only [List.mem_map] at ha
    obtain ⟨s, _, rfl⟩ := ha
    positivity
  · positivity

/-- A zero sum of squares forces every sample to be zero. -/
theorem allzero_of_sum_sq_zero :
    ∀ {x : List ℝ}, (x.map (fun s => s ^ 2)).sum = 0 → ∀ s ∈ x, s = 0 := by
  intro x
  induction x with
  | nil => simp
  | cons a t ih =>
    intro h s hs
    simp only [List.map_cons, List.sum_cons] at h
    have ha : 0 ≤ a ^ 2 := by positivity
    have ht : 0 ≤ (t.map (fun s => s ^ 2)).sum := by
      apply List.sum_nonneg
      intro b hb
      simp only [List.mem_map] at hb
      obtain ⟨u, _, rfl⟩ := hb
      positivity
    have h1 : a ^ 2 = 0 := by linarith
    have h2 : (t.map (fun s => s ^ 2)).sum = 0 := by linarith
    rw [List.mem_cons] at hs
    rcases hs with rfl | hs
    · exact (pow_eq_zero_iff (by norm_num : (2 : ℕ) ≠ 0)).mp h1
    · exact ih h2 s hs

/-- The RMS of the empty sequence is 0 in the model. -/
theorem rmsOf_nil : rmsOf ([] : List ℝ) = 0 := by
  simp [rmsOf, npMean, npSum]

/-- A non-empty sequence with zero RMS is all-zero. -/
theorem allzero_of_rms_eq_zero {x : List ℝ} (hx : x ≠ [])
    (h : rmsOf x = 0) : ∀ s ∈ x, s = 0 := by
  have hm : npMean (x.map (fun s => s ^ 2)) = 0 :=
    (Real.sqrt_eq_zero (npMean_sq_nonneg x)).mp h
  have hlen : (x.length : ℝ) ≠ 0 := by
    exact_mod_cast fun h0 => hx (List.length_eq_zero.mp h0)
  have hsum : (x.map (fun s => s ^ 2)).sum = 0 := by
    unfold npMean npSum at hm
    rw [List.length_map] at hm
    rcases div_eq_zero_iff.mp hm with h1 | h1
    · exact h1
    · exact absurd h1 hlen
  exact allzero_of_sum_sq_zero hsum

/-- An all-zero sequence has zero RMS. -/
theorem rms_of_allzero {x : List ℝ} (h : ∀ s ∈ x, s = 0) : rmsOf x = 0 := by
  unfold rmsOf npMean npSum
  have hz : (x.map (fun s => s ^ 2)).sum = 0 := by
    apply List.sum_eq_zero
    intro a ha
    simp only [List.mem_map] at ha
    obtain ⟨s, hs, rfl⟩ := ha
    rw [h s hs]
    norm_num
  rw [hz]
  simp

/-- On a non-empty list, npMax of the magnitudes is exactly the peak. -/
theorem npMax_map_abs_eq {x : List ℝ} (hx : x ≠ []) :
    npMax (x.map (fun s => |s|)) = some (peakAbs x) := by
  cases x with
  | nil => exact absurd rfl hx
  | cons a t => rfl

/-- Folding max over a list bounded by the accumulator returns the
accumulator. -/
theorem foldl_max_const (a : ℝ) :
    ∀ l : List ℝ, (∀ s ∈ l, s ≤ a) →
      l.foldl (fun p q => max p q) a = a := by
  intro l
  induction l with
  | nil => intro _; rfl
  | cons b t ih =>
    intro h
    simp only [List.foldl_cons]
    rw [max_eq_left (h b (by simp))]
    exact ih (fun s hs => h s (by simp [hs]))

/-- The peak of an all-zero sequence is 0. -/
theorem peakAbs_allzero {x : List ℝ} (h : ∀ s ∈ x, s = 0) :
    peakAbs x = 0 := by
  cases x with
  | nil => rfl
  | cons a t =>
    unfold peakAbs npMax
    simp only [List.map_cons, Option.getD_some]
    rw [h a (by simp), abs_zero]
    apply foldl_max_const
    intro s hs
    simp only [List.mem_map] at hs
    obtain ⟨u, hu, rfl⟩ := hs
    rw [h u (by simp [hu])]
    simp

/-- Folding max commutes with a nonnegative rescale. -/
theorem foldl_max_mul_nonneg {k : ℝ} (hk : 0 ≤ k) :
    ∀ (l : List ℝ) (a : ℝ),
      (l.map (fun s => s * k)).foldl (fun p q => max p q) (a * k) =
        l.foldl (fun p q => max p q) a * k := by
  intro l
  induction l with
  | nil => intro a; rfl
  | cons b t ih =>
    intro a
    simp only [List.map_cons, List.foldl_cons]
    rw [← max_mul_of_nonneg a b hk]
    exact ih (max a b)

/-- npMax commutes with a nonnegative rescale. -/
theorem npMax_map_mul {k : ℝ} (hk : 0 ≤ k) (l : List ℝ) :
    npMax (l.map (fun s => s * k)) = (npMax l).map (fun v => v * k) := by
  cases l with
  | nil => rfl
  | cons a t =>
    unfold npMax
    simp only [List.map_cons, Option.map_some]
    rw [foldl_max_mul_nonneg hk t a]
    rfl

/-- The peak of a rescaled sequence is the rescaled peak, for nonnegative
scale factors. -/
theorem peakAbs_map_mul (x : List ℝ) {k : ℝ} (hk : 0 ≤ k) :
    peakAbs (x.map (fun s => s * k)) = peakAbs x * k := by
  unfold peakAbs
  have habs : (x.map (fun s => s * k)).map (fun s => |s|) =
      (x.map (fun s => |s|)).map (fun s => s * k) := by
    simp only [List.map_map]
    apply List.map_congr_left
    intro a _
    simp only [Function.comp_apply]
    rw [abs_mul, abs_of_nonneg hk]
  rw [habs, npMax_map_mul hk]
  cases npMax (x.map (fun s => |s|)) with
  | none => simp
  | some v => simp

/-- The mean of a rescaled list is the rescaled mean. -/
theorem npMean_map_mul (l : List ℝ) (r : ℝ) :
    npMean (l.map (fun s => s * r)) = npMean l * r := by
  unfold npMean npSum
  rw [List.length_map, List.sum_map_mul_right]
  rw [mul_div_right_comm]
  simp

/-- The RMS of a rescaled sequence is the RMS scaled by the absolute
factor. -/
theorem rms_map_mul (x : List ℝ) (k : ℝ) :
    rmsOf (x.map (fun s => s * k)) = rmsOf x * |k| := by
  unfold rmsOf
  have hsq : (x.map (fun s => s * k)).map (fun s => s ^ 2) =
      (x.map (fun s => s ^ 2)).map (fun s => s * k ^ 2) := by
    simp only [List.map_map]
    apply List.map_congr_left
    intro a _
    simp only [Function.comp_apply]
    ring
  rw [hsq, npMean_map_mul]
  rw [Real.sqrt_mul (npMean_sq_nonneg x), Real.sqrt_sq_eq_abs]

/-- The normalization gain 10 ^ ((-20 - 20 log10 rms) / 20) collapses to
1 / (10 rms) for positive rms. -/
theorem gain_eq {rms : ℝ} (h : 0 < rms) :
    (10 : ℝ) ^ ((-20 - 20 * Real.logb 10 rms) / 20) = 1 / (10 * rms) := by
  have hexp : ((-20 : ℝ) - 20 * Real.logb 10 rms) / 20 =
      (-1) + (-Real.logb 10 rms) := by ring
  rw [hexp, Real.rpow_add (by norm_num : (0 : ℝ) < 10)]
  rw [Real.rpow_neg (by norm_num : (0 : ℝ) ≤ 10) 1, Real.rpow_one]
  rw [Real.rpow_neg (by norm_num : (0 : ℝ) ≤ 10)]
  rw [Real.rpow_logb (by norm_num : (0 : ℝ) < 10)
    (by norm_num : (10 : ℝ) ≠ 1) h]
  rw [one_div, mul_inv]

/-- For positive RMS, normalize_audio rescales to the -20 dB target and then
clips: the gain collapses to 1/(10 rms) and the result is the target-scaled
signal, further rescaled by 0.95/peak when its peak exceeds 0.95. -/
theorem normalize_pos_rms_eq (x : List ℝ) (h : 0 < rmsOf x) :
    normalize_audio x (-20) =
      .ok (if peakAbs (targetScaled x) > 0.95 then
             (targetScaled x).map
               (fun s => s * (0.95 / peakAbs (targetScaled x)))
           else targetScaled x) := by
  have hne : x ≠ [] := by
    intro h0
    rw [h0, rmsOf_nil] at h
    exact lt_irrefl 0 h
  have hrms : Real.sqrt (npMean (x.map (fun s => s ^ 2))) = rmsOf x := rfl
  simp only [normalize_audio]
  rw [hrms, if_pos h, gain_eq h]
  rw [show x.map (fun s => s * (1 / (10 * rmsOf x))) = targetScaled x
    from rfl]
  have htne : targetScaled x ≠ [] := by
    intro h0
    exact hne (by simpa [targetScaled] using h0)
  rw [npMax_map_abs_eq (x := targetScaled x) htne]

/-- A non-empty all-zero signal passes through normalize_audio verbatim. -/
theorem normalize_allzero_ok (x : List ℝ) (hne : x ≠ [])
    (hz : ∀ s ∈ x, s = 0) : normalize_audio x (-20) = .ok x := by
  have h0 : rmsOf x = 0 := rms_of_allzero hz
  have hrms : Real.sqrt (npMean (x.map (fun s => s ^ 2))) = rmsOf x := rfl
  simp only [normalize_audio]
  rw [hrms, h0, if_neg (lt_irrefl 0), npMax_map_abs_eq hne,
    peakAbs_allzero hz]
  have hn : ¬ ((0 : ℝ) > 0.95) := by norm_num
  simp [hn]

/-- normalize_audio never raises on a non-empty input. -/
theorem normalize_ok_of_ne_nil (x : List ℝ) (hne : x ≠ []) :
    ∃ y, normalize_audio x (-20) = .ok y := by
  have hnn : 0 ≤ rmsOf x := Real.sqrt_nonneg _
  rcases eq_or_lt_of_le hnn with heq | hlt
  · exact ⟨x, normalize_allzero_ok x hne
      (allzero_of_rms_eq_zero hne heq.symm)⟩
  · exact ⟨_, normalize_pos_rms_eq x hlt⟩

/-- C5: normalize_audio at the default -20 dB target. A non-empty all-zero
input (RMS 0) is returned verbatim with no gain. A non-empty input with
positive RMS is scaled by 1/(10 rms) so that its RMS becomes exactly 1/10
(the -20 dB target); if the peak after that scaling exceeds the 0.95 clip
ceiling, the output is instead rescaled so that its peak is exactly 0.95. -/
theorem C5_normalize_audio_rms_target_and_clip :
    ∀ x : List ℝ, x ≠ [] →
      (rmsOf x = 0 → normalize_audio x (-20) = .ok x) ∧
      (0 < rmsOf x → ∃ y, normalize_audio x (-20) = .ok y ∧
        y.length = x.length ∧
        ((peakAbs (targetScaled x) ≤ 0.95 ∧ y = targetScaled x ∧
            rmsOf y = 1 / 10) ∨
         (0.95 < peakAbs (targetScaled x) ∧ peakAbs y = 0.95))) := by
  intro x hne
  constructor
  · intro h0
    exact normalize_allzero_ok x hne (allzero_of_rms_eq_zero hne h0)
  · intro hpos
    rw [normalize_pos_rms_eq x hpos]
    by_cases hpk : peakAbs (targetScaled x) > 0.95
    · refine ⟨(targetScaled x).map
        (fun s => s * (0.95 / peakAbs (targetScaled x))), ?_, ?_,
        Or.inr ⟨hpk, ?_⟩⟩
      · rw [if_pos hpk]
      · simp [targetScaled]
      · have hppos : (0 : ℝ) < peakAbs (targetScaled x) := by linarith
        rw [peakAbs_map_mul _ (div_nonneg (by norm_num) (le_of_lt hppos))]
        field_simp
    · push_neg at hpk
      refine ⟨targetScaled x, ?_, ?_, Or.inl ⟨hpk, rfl, ?_⟩⟩
      · rw [if_neg (by push_neg; exact hpk)]
      · simp [targetScaled]
      · unfold targetScaled
        rw [rms_map_mul]
        have hk : (0 : ℝ) < 1 / (10 * rmsOf x) := by
          apply div_pos (by norm_num)
          linarith
        rw [abs_of_pos hk]
        field_simp
        ring

/-- Witness for C5 at the concrete input [3/5], whose RMS is the positive
value 3/5. -/
theorem C5_witness :
    0 < rmsOf [3 / 5] ∧
    (∃ y, normalize_audio [3 / 5] (-20) = .ok y ∧
      y.length = ([3 / 5] : List ℝ).length ∧
      ((peakAbs (targetScaled [3 / 5]) ≤ 0.95 ∧ y = targetScaled [3 / 5] ∧
          rmsOf y = 1 / 10) ∨
       (0.95 < peakAbs (targetScaled [3 / 5]) ∧ peakAbs y = 0.95))) := by
  have hrms : rmsOf [3 / 5] = 3 / 5 := by
    have hmean : npMean (([3 / 5] : List ℝ).map (fun s => s ^ 2)) =
        (3 / 5) ^ 2 := by
      unfold npMean npSum
      simp
    unfold rmsOf
    rw [hmean]
    exact Real.sqrt_sq (by norm_num)
  have hpos : 0 < rmsOf [3 / 5] := by rw [hrms]; norm_num
  exact ⟨hpos,
    (C5_normalize_audio_rms_target_and_clip [3 / 5] (by simp)).2 hpos⟩

/-- The two-tap lfilter maps an all-zero signal with zero state to itself. -/
theorem lfilterB2_zeros (b0 b1 : ℝ) :
    ∀ k : ℕ, lfilterB2 b0 b1 0 (List.replicate k 0) = List.replicate k 0
  | 0 => rfl
  | k + 1 => by
    simp only [List.replicate_succ, lfilterB2, mul_zero, add_zero]
    rw [lfilterB2_zeros b0 b1 k]

/-- Counterexample for C2: normalize_audio has no try/except, and on the
empty sequence np.max of the empty magnitude array raises, so the
conditioner raises instead of returning its input. -/
theorem C2_counterexample_normalize_empty_raises :
    normalize_audio [] (-20) =
      .error "zero-size array to reduction operation maximum" := by
  have hrms : Real.sqrt (npMean (([] : List ℝ).map (fun s => s ^ 2))) = 0 := by
    simp [npMean, npSum]
  simp only [normalize_audio]
  rw [hrms, if_neg (lt_irrefl 0)]
  rfl

/-- C2 (amended): every conditioner except normalize_audio is fail-soft on
pathological inputs. normalize_audio returns a value on every non-empty
input and passes non-empty all-zero inputs through unchanged, but raises on
the empty sequence (the counterexample above). remove_dc_offset and
apply_preemphasis return the empty input, a single sample, and all-zero
inputs unchanged; apply_wiener_filter is the identity; the bandpass filter
at the default (80, 8000) band and the 16 kHz pipeline rate is the identity
(scipy butter rejects a normalized cutoff of exactly 1); the high-pass
filter returns inputs of length at most its filtfilt pad length 15
unchanged; and the try/except wrappers of reduce_noise and trim_silence
return the input whenever their numeric core raises. -/
theorem C2_conditioners_pathological_amended :
    (∀ x : List ℝ, x ≠ [] → ∃ y, normalize_audio x (-20) = .ok y) ∧
    (∀ n : ℕ, normalize_audio (List.replicate (n + 1) 0) (-20) =
      .ok (List.replicate (n + 1) 0)) ∧
    remove_dc_offset ([] : List ℝ) = [] ∧
    (∀ c : ℝ, apply_preemphasis [] c = []) ∧
    (∀ a c : ℝ, apply_preemphasis [a] c = [a]) ∧
    (∀ (n : ℕ) (c : ℝ), apply_preemphasis (List.replicate n 0) c =
      List.replicate n 0) ∧
    (∀ (audio : List ℝ) (nv : ℝ), apply_wiener_filter audio nv = audio) ∧
    (∀ (env : DspEnv) (audio : List ℝ),
      apply_bandpass_filter env audio 16000 80 8000 = audio) ∧
    (∀ (env : DspEnv) (audio : List ℝ) (cutoff : ℝ), audio.length ≤ 15 →
      apply_high_pass_filter env audio 16000 cutoff = audio) ∧
    (∀ (env : DspEnv) (audio : List ℝ) (sr : ℕ) (f : ℝ) (e : String),
      env.stftCore audio f = .error e → reduce_noise env audio sr f = audio) ∧
    (∀ (env : DspEnv) (audio : List ℝ) (sr : ℕ) (t : ℝ) (e : String),
      env.trimCore audio t 2048 512 = .error e →
        trim_silence env audio sr t = audio) := by
  refine ⟨fun x hx => normalize_ok_of_ne_nil x hx, ?_, rfl, fun c => rfl,
    fun a c => rfl, ?_, apply_wiener_filter_eq_input, ?_, ?_, ?_, ?_⟩
  · intro n
    apply normalize_allzero_ok
    · simp
    · intro s hs
      exact List.eq_of_mem_replicate hs
  · intro n c
    match n with
    | 0 => rfl
    | 1 => rfl
    | m + 2 =>
      have hrep : List.replicate (m + 2) (0 : ℝ) =
          0 :: 0 :: List.replicate m 0 := by
        simp [List.replicate_succ]
      rw [hrep]
      show tryOr (librosa_preemphasis (0 :: 0 :: List.replicate m 0) c) _ = _
      simp only [librosa_preemphasis]
      rw [show (2 * (0 : ℝ) - 0) = 0 by ring]
      rw [show ((0 : ℝ) :: 0 :: List.replicate m 0) =
        List.replicate (m + 2) 0 from hrep.symm]
      rw [lfilterB2_zeros]
      rfl
  · intro env audio
    simp only [apply_bandpass_filter, bandpass_body]
    split_ifs with h1 h2
    all_goals try rfl
    all_goals exfalso
    all_goals have hh := h1.2.2.2
    all_goals push_cast at hh
    all_goals norm_num at hh
  · intro env audio cutoff hlen
    simp only [apply_high_pass_filter, high_pass_body]
    split_ifs with h1
    all_goals rfl
  · intro env audio sr f e h
    unfold reduce_noise
    rw [h]
    rfl
  · intro env audio sr t e h
    unfold trim_silence
    rw [h]
    rfl

/-- Witness for C2 on concrete pathological inputs: a non-empty input to
normalize_audio, a single-sample input to the high-pass filter, and failing
numeric cores for the wrapped conditioners. -/
theorem C2_witness :
    (∃ y, normalize_audio [1, 0] (-20) = .ok y) ∧
    apply_high_pass_filter probeEnv [0] 16000 80 = [0] ∧
    reduce_noise probeEnv [1] 16000 (7 / 10) = [1] ∧
    trim_silence { probeEnv with trimCore := fun _ _ _ _ => .error "trim" }
      [1] 16000 20 = [1] := by
  obtain ⟨h1, _, _, _, _, _, _, _, h9, h10, h11⟩ :=
    C2_conditioners_pathological_amended
  exact ⟨h1 [1, 0] (by simp), h9 probeEnv [0] 80 (by simp),
    h10 probeEnv [1] 16000 (7 / 10) "stft failure" rfl,
    h11 _ [1] 16000 20 "trim" rfl⟩
